import Mathlib

/-!
Verification development for the GAEVIC eviction-case system
(`main.py`, `backend/github_submitter.py`, `dashboard_api.py`,
`scripts/generate_docs.py`).

Python dicts are embedded as insertion-ordered association lists
(`List (String × α)`): assignment `d[k] = v` replaces the value at the
first occurrence of `k`, or appends `(k, v)` when `k` is absent, which
matches CPython's ordered-dict semantics for the update patterns the
code uses.  JSON values are embedded as the inductive `JVal`.
-/

set_option autoImplicit false

namespace GAEVIC

/-- JSON-like values carried in case records (strings, integers,
booleans, null, objects, arrays). -/
inductive JVal where
  | str (s : String)
  | num (n : Int)
  | bool (b : Bool)
  | null
  | obj (fields : List (String × JVal))
  | arr (elems : List JVal)
deriving Repr

mutual

/-- Decidable equality for `JVal`. -/
def JVal.beq : JVal → JVal → Bool
  | .str a, .str b => a = b
  | .num a, .num b => a = b
  | .bool a, .bool b => a = b
  | .null, .null => true
  | .obj a, .obj b => JVal.beqFields a b
  | .arr a, .arr b => JVal.beqList a b
  | _, _ => false

def JVal.beqFields : List (String × JVal) → List (String × JVal) → Bool
  | [], [] => true
  | (k, v) :: t, (k', v') :: t' => k = k' && JVal.beq v v' && JVal.beqFields t t'
  | _, _ => false

def JVal.beqList : List JVal → List JVal → Bool
  | [], [] => true
  | v :: t, v' :: t' => JVal.beq v v' && JVal.beqList t t'
  | _, _ => false

end

mutual

theorem JVal.beq_refl : ∀ (a : JVal), JVal.beq a a = true
  | .str _ => by simp [JVal.beq]
  | .num _ => by simp [JVal.beq]
  | .bool _ => by simp [JVal.beq]
  | .null => rfl
  | .obj fs => by simpa [JVal.beq] using JVal.beqFields_refl fs
  | .arr xs => by simpa [JVal.beq] using JVal.beqList_refl xs

theorem JVal.beqFields_refl : ∀ (fs : List (String × JVal)), JVal.beqFields fs fs = true
  | [] => rfl
  | (_, v) :: t => by simp [JVal.beqFields, JVal.beq_refl v, JVal.beqFields_refl t]

theorem JVal.beqList_refl : ∀ (xs : List JVal), JVal.beqList xs xs = true
  | [] => rfl
  | v :: t => by simp [JVal.beqList, JVal.beq_refl v, JVal.beqList_refl t]

end

mutual

theorem JVal.eq_of_beq : ∀ (a b : JVal), JVal.beq a b = true → a = b
  | .str _, .str _, h => by simp [JVal.beq] at h; rw [h]
  | .num _, .num _, h => by simp [JVal.beq] at h; rw [h]
  | .bool _, .bool _, h => by simp [JVal.beq] at h; rw [h]
  | .null, .null, _ => rfl
  | .obj fs, .obj gs, h => by
      rw [JVal.eqFields_of_beq fs gs (by simpa [JVal.beq] using h)]
  | .arr xs, .arr ys, h => by
      rw [JVal.eqList_of_beq xs ys (by simpa [JVal.beq] using h)]
  | .str _, .num _, h => by simp [JVal.beq] at h
  | .str _, .bool _, h => by simp [JVal.beq] at h
  | .str _, .null, h => by simp [JVal.beq] at h
  | .str _, .obj _, h => by simp [JVal.beq] at h
  | .str _, .arr _, h => by simp [JVal.beq] at h
  | .num _, .str _, h => by simp [JVal.beq] at h
  | .num _, .bool _, h => by simp [JVal.beq] at h
  | .num _, .null, h => by simp [JVal.beq] at h
  | .num _, .obj _, h => by simp [JVal.beq] at h
  | .num _, .arr _, h => by simp [JVal.beq] at h
  | .bool _, .str _, h => by simp [JVal.beq] at h
  | .bool _, .num _, h => by simp [JVal.beq] at h
  | .bool _, .null, h => by simp [JVal.beq] at h
  | .bool _, .obj _, h => by simp [JVal.beq] at h
  | .bool _, .arr _, h => by simp [JVal.beq] at h
  | .null, .str _, h => by simp [JVal.beq] at h
  | .null, .num _, h => by simp [JVal.beq] at h
  | .null, .bool _, h => by simp [JVal.beq] at h
  | .null, .obj _, h => by simp [JVal.beq] at h
  | .null, .arr _, h => by simp [JVal.beq] at h
  | .obj _, .str _, h => by simp [JVal.beq] at h
  | .obj _, .num _, h => by simp [JVal.beq] at h
  | .obj _, .bool _, h => by simp [JVal.beq] at h
  | .obj _, .null, h => by simp [JVal.beq] at h
  | .obj _, .arr _, h => by simp [JVal.beq] at h
  | .arr _, .str _, h => by simp [JVal.beq] at h
  | .arr _, .num _, h => by simp [JVal.beq] at h
  | .arr _, .bool _, h => by simp [JVal.beq] at h
  | .arr _, .null, h => by simp [JVal.beq] at h
  | .arr _, .obj _, h => by simp [JVal.beq] at h

theorem JVal.eqFields_of_beq :
    ∀ (fs gs : List (String × JVal)), JVal.beqFields fs gs = true → fs = gs
  | [], [], _ => rfl
  | (k, v) :: t, (k', v') :: t', h => by
      simp only [JVal.beqFields, Bool.and_eq_true, decide_eq_true_eq] at h
      rw [h.1.1, JVal.eq_of_beq v v' h.1.2, JVal.eqFields_of_beq t t' h.2]
  | [], _ :: _, h => by simp [JVal.beqFields] at h
  | _ :: _, [], h => by simp [JVal.beqFields] at h

theorem JVal.eqList_of_beq : ∀ (xs ys : List JVal), JVal.beqList xs ys = true → xs = ys
  | [], [], _ => rfl
  | v :: t, v' :: t', h => by
      simp only [JVal.beqList, Bool.and_eq_true] at h
      rw [JVal.eq_of_beq v v' h.1, JVal.eqList_of_beq t t' h.2]
  | [], _ :: _, h => by simp [JVal.beqList] at h
  | _ :: _, [], h => by simp [JVal.beqList] at h

end

theorem JVal.beq_iff (a b : JVal) : JVal.beq a b = true ↔ a = b :=
  ⟨JVal.eq_of_beq a b, fun h => h ▸ JVal.beq_refl a⟩

instance : DecidableEq JVal := fun a b => decidable_of_iff _ (JVal.beq_iff a b)

/-- Python dict lookup `d.get(k)`: value at the first occurrence of `k`. -/
def aget {α : Type} (k : String) : List (String × α) → Option α
  | [] => none
  | (k', v) :: rest => if k' = k then some v else aget k rest

/-- Python dict assignment `d[k] = v`: replace the value at the first
occurrence of `k`, or append `(k, v)` when `k` is absent. -/
def dset {α : Type} (d : List (String × α)) (k : String) (v : α) : List (String × α) :=
  match d with
  | [] => [(k, v)]
  | (k', v') :: rest => if k' = k then (k, v) :: rest else (k', v') :: dset rest k v

/-- Update the value at the first occurrence of `k` in place, leaving the
list unchanged when `k` is absent (Python `d[k] = f(d[k])` guarded by a
membership test). -/
def modAssoc {α : Type} (k : String) (f : α → α) : List (String × α) → List (String × α)
  | [] => []
  | (k', v) :: rest => if k' = k then (k', f v) :: rest else (k', v) :: modAssoc k f rest

/-- Update the first list element satisfying `p` (Python's
`next(i for i, c in enumerate(xs) if p(c))` followed by `xs[i] = f(xs[i])`);
the list is unchanged when no element satisfies `p`. -/
def updAt {α : Type} (p : α → Bool) (f : α → α) : List α → List α
  | [] => []
  | c :: rest => if p c then f c :: rest else c :: updAt p f rest

/-- Keys of an association list, in order. -/
def keysOf {α : Type} (d : List (String × α)) : List String :=
  d.map (fun e => e.1)

/-- Python `d.get(k)` on a case record, conflating an absent key with a
stored JSON `null` exactly as Python conflates both with `None`. -/
def pyGet (k : String) (c : List (String × JVal)) : JVal :=
  (aget k c).getD .null

mutual

/-- Deterministic serialization standing in for `json.dumps`: the only
property the code relies on is that identical data serializes to
identical text (whitespace layout of `indent=2` is immaterial). -/
def JVal.encode : JVal → String
  | .str s => "\"" ++ s ++ "\""
  | .num n => toString n
  | .bool b => if b then "true" else "false"
  | .null => "null"
  | .obj fs => "\x7b" ++ JVal.encodeFields fs ++ "\x7d"
  | .arr xs => "[" ++ JVal.encodeList xs ++ "]"

def JVal.encodeFields : List (String × JVal) → String
  | [] => ""
  | [(k, v)] => "\"" ++ k ++ "\": " ++ JVal.encode v
  | (k, v) :: rest => "\"" ++ k ++ "\": " ++ JVal.encode v ++ ", " ++ JVal.encodeFields rest

def JVal.encodeList : List JVal → String
  | [] => ""
  | [v] => JVal.encode v
  | v :: rest => JVal.encode v ++ ", " ++ JVal.encodeList rest

end

/-! ## `backend/github_submitter.py` — `GitHubCaseSubmitter` -/

/-- Embeds `get_doc_filename`: fixed filename table with `<doc_type>.pdf` fallback. -/
def get_doc_filename (doc_type : String) : String :=
  if doc_type = "demand_notice" then "7-Day_Demand_Notice.pdf"
  else if doc_type = "affidavit" then "Dispossessory_Affidavit.pdf"
  else if doc_type = "summons" then "Summons.pdf"
  else if doc_type = "scra_form" then "SCRA_Verification.pdf"
  else doc_type ++ ".pdf"

/-- The payload `submit_case` receives (`CaseSubmission.dict()` of the
FastAPI endpoint): an optional/empty `case_id`, the nested `case_data`
object, and the ordered `doc_type ↦ base64 content` map.  The unused
`timestamp` field is omitted. -/
structure CaseSubmission where
  case_id : Option String
  case_data : List (String × JVal)
  documents : List (String × String)
deriving Repr, DecidableEq

/-- One entry of `cases/index.json` as built by `update_case_index`. -/
structure IndexEntry where
  case_id : String
  landlord : Option JVal
  tenant : Option JVal
  property : Option JVal
  submitted : String
  status : String
deriving Repr, DecidableEq

/-- Remote repository state: the contents-API file store plus the parsed
`cases/index.json` case list (a missing index file behaves as the empty
list, matching the 404 branch of `update_case_index`). -/
structure GHState where
  files : List (String × String)
  index : List IndexEntry
deriving Repr, DecidableEq

/-- Embeds `case_data.get("case_data", {}).get(party, {}).get(field)`: nested
lookup of a party's name/address, `none` when any level is absent. -/
def get_party_field (cd : List (String × JVal)) (party field : String) : Option JVal :=
  match aget party cd with
  | some (.obj fs) => aget field fs
  | _ => none

/-- The index entry `update_case_index` appends for a submission;
`now` is `datetime.now().isoformat()`. -/
def mkIndexEntry (case_id : String) (sub : CaseSubmission) (now : String) : IndexEntry :=
  { case_id := case_id,
    landlord := get_party_field sub.case_data "landlord" "name",
    tenant := get_party_field sub.case_data "tenant" "name",
    property := get_party_field sub.case_data "property" "address",
    submitted := now,
    status := "submitted" }

/-- Embeds `update_case_index`: read the current index (missing file = empty),
append the new entry, write back with the sha obtained from the read.
`putOk` is the outcome of the single conditional `requests.put`; the
second component counts the put attempts the code performs (exactly
one — there is no retry loop). -/
def update_case_index (st : GHState) (entry : IndexEntry) (putOk : Bool) :
    Except String GHState × Nat :=
  (if putOk then .ok { st with index := st.index ++ [entry] }
   else .error "422 Unprocessable Entity: sha mismatch", 1)

/-- Case-id allocation in `submit_case`:
`f"HOU-{datetime.now().year}-{int(datetime.now().timestamp())}"`. -/
def gh_alloc_case_id (year ts : Nat) : String :=
  "HOU-" ++ toString year ++ "-" ++ toString ts

/-- Embeds `case_id = case_data.get("case_id"); if not case_id: allocate` —
a supplied non-empty id is used verbatim, a missing or empty
(Python-falsy) id triggers allocation. -/
def resolve_case_id (supplied : Option String) (year ts : Nat) : String :=
  match supplied with
  | some cid => if cid = "" then gh_alloc_case_id year ts else cid
  | none => gh_alloc_case_id year ts

/-- The document-writing loop of `submit_case` steps 2: write each
document at `cases/<case_id>/<filename>` in order; the first failing
write raises, abandoning the remaining documents.  `failPaths` is the
set of paths whose contents-API write fails. -/
def write_documents (failPaths : List String) (case_dir : String)
    (files : List (String × String)) :
    List (String × String) → List (String × String) × Option String
  | [] => (files, none)
  | (doc_type, content) :: rest =>
      let path := case_dir ++ "/" ++ get_doc_filename doc_type
      if path ∈ failPaths then (files, some ("write failed: " ++ path))
      else write_documents failPaths case_dir (dset files path content) rest

/-- The dictionary `submit_case` returns: the success shape carries
`case_id`, `github_path` and `files_created`; the failure shape carries
`error` and the resolved `case_id`. -/
structure SubmitResult where
  success : Bool
  case_id : Option String
  github_path : Option String
  files_created : Option Nat
  error_msg : Option String
deriving Repr, DecidableEq

/-- Embeds `GitHubCaseSubmitter.submit_case`: resolve the case id, write
`case_data.json`, write each document, append to the index; the
enclosing `try/except` turns the first raised failure into an error
result (with the resolved id) and skips every later step. -/
def submit_case (st : GHState) (sub : CaseSubmission) (year ts : Nat) (now : String)
    (failPaths : List String) (indexPutOk : Bool) : GHState × SubmitResult :=
  let case_id := resolve_case_id sub.case_id year ts
  let case_dir := "cases/" ++ case_id
  let jsonPath := case_dir ++ "/case_data.json"
  if jsonPath ∈ failPaths then
    (st, { success := false, case_id := some case_id, github_path := none,
           files_created := none, error_msg := some ("write failed: " ++ jsonPath) })
  else
    let files1 := dset st.files jsonPath (JVal.encode (.obj sub.case_data))
    match write_documents failPaths case_dir files1 sub.documents with
    | (files2, some e) =>
        ({ st with files := files2 },
         { success := false, case_id := some case_id, github_path := none,
           files_created := none, error_msg := some e })
    | (files2, none) =>
        match update_case_index { files := files2, index := st.index }
            (mkIndexEntry case_id sub now) indexPutOk with
        | (.error e, _) =>
            ({ st with files := files2 },
             { success := false, case_id := some case_id, github_path := none,
               files_created := none, error_msg := some e })
        | (.ok st', _) =>
            (st', { success := true, case_id := some case_id,
                    github_path := some (case_dir ++ "/"),
                    files_created := some (sub.documents.length + 1),
                    error_msg := none })

/-! ## `main.py` — record store and lifecycle operations -/

/-- A case record (`case_data.json` / an element of `data/cases.json`):
a Python dict with JSON values. -/
abbrev Case := List (String × JVal)

/-- Embeds `c.get("case_id") == case_id` for a string `case_id` path parameter. -/
def case_id_matches (case_id : String) (c : Case) : Bool :=
  JVal.beq (pyGet "case_id" c) (.str case_id)

/-- Embeds the `main.py` id allocation:
`f"HOU-{year}-{timestamp}-{str(uuid.uuid4())[:8]}"`; `random_num` is the
8-character random suffix. -/
def main_alloc_case_id (year ts : Nat) (random_num : String) : String :=
  "HOU-" ++ toString year ++ "-" ++ toString ts ++ "-" ++ random_num

/-- Embeds `update_case_database`: load `data/cases.json` (missing = empty),
replace the first entry whose `case_id` equals the new record's
`case_id`, or append when none matches; `none` models the `KeyError`
on a record without a `case_id` key. -/
def update_case_database (cases : List Case) (case_data : Case) : Option (List Case) :=
  match aget "case_id" case_data with
  | none => none
  | some v =>
      if cases.any (fun c => JVal.beq (pyGet "case_id" c) v) then
        some (updAt (fun c => JVal.beq (pyGet "case_id" c) v) (fun _ => case_data) cases)
      else
        some (cases ++ [case_data])

/-- Local storage of `main.py`: the `data/cases.json` list (`none` when
the file does not exist) and the per-case `cases/<id>/case_data.json`
records for the case directories that exist. -/
structure MainState where
  db : Option (List Case)
  recs : List (String × Case)
deriving Repr

/-- The field updates of `update_case_status`: set `status` and
`updated_at`, and `admin_notes` when `notes` is truthy (Python
`if notes:` — `None` and `""` are both falsy). -/
def upd_status_fields (status now : String) (notes : Option String) (c : Case) : Case :=
  let c1 := dset c "status" (.str status)
  let c2 := dset c1 "updated_at" (.str now)
  match notes with
  | some s => if s = "" then c2 else dset c2 "admin_notes" (.str s)
  | none => c2

/-- Embeds the `update_case_status` endpoint: 404 when the database file or the
case is missing; otherwise update the matching database entry and, when
the case directory exists, the per-case record, with the same fields. -/
def update_case_status (st : MainState) (case_id status now : String)
    (notes : Option String) : Except Nat MainState :=
  match st.db with
  | none => .error 404
  | some cases =>
      if cases.any (case_id_matches case_id) then
        let cases2 := updAt (case_id_matches case_id) (upd_status_fields status now notes) cases
        let recs2 := match aget case_id st.recs with
          | some rc => dset st.recs case_id (upd_status_fields status now notes rc)
          | none => st.recs
        .ok { db := some cases2, recs := recs2 }
      else .error 404

/-- The field updates of `assign_case_number`: set
`official_case_number`, `status = "filed"`, `filing_date` and
`assigned_at`. -/
def assign_fields (case_number filing_date now : String) (c : Case) : Case :=
  let c1 := dset c "official_case_number" (.str case_number)
  let c2 := dset c1 "status" (.str "filed")
  let c3 := dset c2 "filing_date" (.str filing_date)
  dset c3 "assigned_at" (.str now)

/-- Embeds the `assign_case_number` endpoint: 404 when the database file or the
case is missing; otherwise assign the official number and mark the case
filed in the database entry and, when present, the per-case record.
`filing_date or today` resolves a falsy date to today's date. -/
def assign_case_number (st : MainState) (case_id case_number : String)
    (filing_date : Option String) (today now : String) : Except Nat MainState :=
  match st.db with
  | none => .error 404
  | some cases =>
      if cases.any (case_id_matches case_id) then
        let eff := match filing_date with
          | some s => if s = "" then today else s
          | none => today
        let cases2 := updAt (case_id_matches case_id) (assign_fields case_number eff now) cases
        let recs2 := match aget case_id st.recs with
          | some rc => dset st.recs case_id (assign_fields case_number eff now rc)
          | none => st.recs
        .ok { db := some cases2, recs := recs2 }
      else .error 404

/-! ## `dashboard_api.py` — clerk update, CSV export, monthly report -/

/-- The `CaseUpdate` request body: all fields optional. -/
structure CaseUpdate where
  status : Option String
  official_case_number : Option String
  filing_date : Option String
  clerk_notes : Option String
  rejection_reason : Option String
deriving Repr

/-- Python truthiness of an optional string: `None` and `""` are falsy. -/
def truthy : Option String → Bool
  | none => false
  | some s => s ≠ ""

/-- The field updates of the dashboard `update_case` endpoint, applied
in source order; a truthy `status` also records `assigned_by` and
`assigned_at`. -/
def apply_case_update (u : CaseUpdate) (username now : String) (c : Case) : Case :=
  let c1 := if truthy u.status then
      dset (dset (dset c "status" (.str (u.status.getD "")))
        "assigned_by" (.str username)) "assigned_at" (.str now)
    else c
  let c2 := if truthy u.official_case_number then
      dset c1 "official_case_number" (.str (u.official_case_number.getD "")) else c1
  let c3 := if truthy u.filing_date then
      dset c2 "filing_date" (.str (u.filing_date.getD "")) else c2
  let c4 := if truthy u.clerk_notes then
      dset c3 "clerk_notes" (.str (u.clerk_notes.getD "")) else c3
  if truthy u.rejection_reason then
    dset c4 "rejection_reason" (.str (u.rejection_reason.getD "")) else c4

/-- Dashboard `update_case` endpoint: 404 when no entry matches the
case id, otherwise apply the requested updates to the first matching
entry and save; no invariant between `status` and
`official_case_number` is checked. -/
def update_case (cases : List Case) (case_id : String) (u : CaseUpdate)
    (username now : String) : Except Nat (List Case) :=
  if cases.any (case_id_matches case_id) then
    .ok (updAt (case_id_matches case_id) (apply_case_update u username now) cases)
  else .error 404

/-- A stored case as the reporting endpoints read it (the fields used
by `export_cases_csv` and `get_monthly_report`).  `amount_owed` is a
Python float in the source; the claims proved about it never divide or
round, so integer amounts embed the arithmetic used (addition only). -/
structure DCase where
  case_id : String
  landlord_name : String
  tenant_name : String
  property_address : String
  amount_owed : Int
  status : String
  submitted_at : String
  official_case_number : Option String
  filing_date : Option String
deriving Repr, DecidableEq

/-- One data row of `export_cases_csv`. -/
def csv_line (c : DCase) : String :=
  c.case_id ++ "," ++ c.landlord_name ++ "," ++ c.tenant_name ++ ","
    ++ c.property_address ++ "," ++ toString c.amount_owed ++ "," ++ c.status ++ ","
    ++ c.submitted_at ++ "," ++ (c.official_case_number.getD "") ++ ","
    ++ (c.filing_date.getD "")

/-- Embeds `export_cases_csv`: the header line followed by one row per case. -/
def export_cases_csv (cases : List DCase) : List String :=
  "Case ID,Landlord,Tenant,Property,Amount Owed,Status,Submitted,Official Case #,Filing Date"
    :: cases.map csv_line

/-- Embeds `datetime.fromisoformat(submitted_at.replace('Z', '+00:00')).strftime("%Y-%m")`:
for an ISO-8601 timestamp this is its first seven characters `YYYY-MM`. -/
def month_key (submitted_at : String) : String :=
  submitted_at.take 7

/-- One month's bucket of the monthly report. -/
structure MStats where
  total : Nat
  filed : Nat
  rejected : Nat
  pending : Nat
  total_amount : Int
deriving Repr, DecidableEq

/-- The zero bucket a new month starts from. -/
def MStats.zero : MStats :=
  { total := 0, filed := 0, rejected := 0, pending := 0, total_amount := 0 }

/-- The per-case increment of `get_monthly_report`: bump `total` and
`total_amount`, and the bucket selected by the `if/elif` chain on
`status`. -/
def bump_stats (c : DCase) (m : MStats) : MStats :=
  { total := m.total + 1,
    filed := if c.status = "filed" then m.filed + 1 else m.filed,
    rejected := if c.status = "rejected" then m.rejected + 1 else m.rejected,
    pending := if c.status = "submitted" ∨ c.status = "processing" ∨ c.status = "approved"
      then m.pending + 1 else m.pending,
    total_amount := m.total_amount + c.amount_owed }

/-- One iteration of the grouping loop: create the month's bucket on
first sight (dict insertion order), then bump it. -/
def add_case_to_stats (acc : List (String × MStats)) (c : DCase) :
    List (String × MStats) :=
  let k := month_key c.submitted_at
  match aget k acc with
  | some _ => modAssoc k (bump_stats c) acc
  | none => acc ++ [(k, bump_stats c MStats.zero)]

/-- The `monthly_stats` dict after the grouping loop. -/
def monthly_stats (cases : List DCase) : List (String × MStats) :=
  cases.foldl add_case_to_stats []

/-- Insertion step of `sorted(monthly_stats.items(), reverse=True)`
(month keys are unique, so tuple order is key order). -/
def insert_desc (e : String × MStats) : List (String × MStats) → List (String × MStats)
  | [] => [e]
  | x :: rest => if x.1 ≤ e.1 then e :: x :: rest else x :: insert_desc e rest

/-- Descending sort by month key. -/
def sort_desc (l : List (String × MStats)) : List (String × MStats) :=
  l.foldr insert_desc []

/-- Embeds `get_monthly_report`: group the stored cases by submission month,
then list the buckets newest month first. -/
def get_monthly_report (cases : List DCase) : List (String × MStats) :=
  sort_desc (monthly_stats cases)

/-- Sum of the `total` fields over a report. -/
def report_total_sum (r : List (String × MStats)) : Nat :=
  (r.map (fun e => e.2.total)).sum

/-- Sum of the `filed` fields over a report. -/
def report_filed_sum (r : List (String × MStats)) : Nat :=
  (r.map (fun e => e.2.filed)).sum

/-! ## `scripts/generate_docs.py` — notice-period rule -/

/-- The notice-period expression of `generate_eviction_notice`:
`"7 days" if case_data.get('lease_type') == 'month-to-month' else "30 days"`. -/
def notice_period (case_data : List (String × JVal)) : String :=
  if JVal.beq (pyGet "lease_type" case_data) (.str "month-to-month") then "7 days"
  else "30 days"

/-- The computed part of the render context `generate_eviction_notice`
passes to `template.render` (the `case` and `court` objects are passed
through unchanged and omitted here). -/
def eviction_notice_context (case_data : List (String × JVal)) (generated_date : String) :
    List (String × String) :=
  [("generated_date", generated_date),
   ("georgia_code", "OCGA § 44-7-50"),
   ("notice_period", notice_period case_data)]

/-! ## Auxiliary definitions used by the theorems -/

/-- Number of database entries whose `case_id` compares equal to `v`. -/
def db_id_count (cases : List Case) (v : JVal) : Nat :=
  cases.countP (fun x => JVal.beq (pyGet "case_id" x) v)

/-- Modelled from the spec: an id of the claimed allocation format
`<PREFIX>-<year>-<timestamp>-<random>` — four dash-free components with
a non-empty random suffix (the code's random suffix,
`str(uuid.uuid4())[:8]`, is eight dash-free hex characters). -/
def spec_claimed_id_format (s : String) : Prop :=
  ∃ p y t r : String, s = p ++ "-" ++ y ++ "-" ++ t ++ "-" ++ r ∧
    r ≠ "" ∧ '-' ∉ p.data ∧ '-' ∉ y.data ∧ '-' ∉ t.data ∧ '-' ∉ r.data

/-- Two case records agree on every key outside `ks`. -/
def agreesExcept (ks : List String) (c c' : Case) : Prop :=
  ∀ k, k ∉ ks → aget k c' = aget k c

/-- View of a failure-free write sequence: fold `dset` over
(path, content) pairs. -/
def writeSeq (fs ws : List (String × String)) : List (String × String) :=
  ws.foldl (fun acc e => dset acc e.1 e.2) fs

/-- The last content written to path `q` by a write sequence. -/
def lastW (q : String) : List (String × String) → Option String
  | [] => none
  | (p, c) :: t =>
      match lastW q t with
      | some c' => some c'
      | none => if p = q then some c else none

end GAEVIC

namespace GAEVIC

theorem aget_dset_self {α : Type} (d : List (String × α)) (k : String) (v : α) :
    aget k (dset d k v) = some v := by
  induction d with
  | nil => simp [dset, aget]
  | cons e rest ih =>
    obtain ⟨k', v'⟩ := e
    by_cases h : k' = k
    · simp [dset, h, aget]
    · simp [dset, h, aget, ih]

theorem aget_dset_ne {α : Type} (d : List (String × α)) (k q : String) (v : α)
    (hq : q ≠ k) : aget q (dset d k v) = aget q d := by
  have hkq : ¬ k = q := fun h => hq h.symm
  induction d with
  | nil => simp [dset, aget, hkq]
  | cons e rest ih =>
    obtain ⟨k', v'⟩ := e
    by_cases h : k' = k
    · subst h
      simp [dset, aget, hkq]
    · simp [dset, h, aget, ih]

theorem keysOf_dset_mem {α : Type} (d : List (String × α)) (k : String) (v : α)
    (hk : k ∈ keysOf d) : keysOf (dset d k v) = keysOf d := by
  induction d with
  | nil => simp [keysOf] at hk
  | cons e rest ih =>
    obtain ⟨k', v'⟩ := e
    by_cases h : k' = k
    · simp [dset, h, keysOf]
    · have hk' : k ∈ keysOf rest := by
        simp [keysOf] at hk
        rcases hk with hk | hk
        · exact absurd hk.symm h
        · simpa [keysOf] using hk
      simp [dset, h, keysOf]
      simpa [keysOf] using ih hk'

theorem keysOf_dset_not_mem {α : Type} (d : List (String × α)) (k : String) (v : α)
    (hk : k ∉ keysOf d) : keysOf (dset d k v) = keysOf d ++ [k] := by
  induction d with
  | nil => simp [dset, keysOf]
  | cons e rest ih =>
    obtain ⟨k', v'⟩ := e
    have h1 : k' ≠ k := by
      intro h
      exact hk (by simp [keysOf, h])
    have h2 : k ∉ keysOf rest := by
      intro h
      exact hk (by simp [keysOf]; right; simpa [keysOf] using h)
    simp [dset, h1, keysOf]
    simpa [keysOf] using ih h2

theorem beq_pyGet_eq_false (c : Case) (v w : JVal) (hv : pyGet "case_id" c = v)
    (hw : w ≠ v) : JVal.beq (pyGet "case_id" c) w = false := by
  cases hb : JVal.beq (pyGet "case_id" c) w
  · rfl
  · exact absurd (hv ▸ JVal.eq_of_beq _ _ hb).symm hw

theorem countP_updAt {α : Type} (p : α → Bool) (f : α → α) (q : α → Bool)
    (hrepl : ∀ a, p a = true → q (f a) = q a) :
    ∀ l : List α, (updAt p f l).countP q = l.countP q := by
  intro l
  induction l with
  | nil => rfl
  | cons a rest ih =>
    by_cases hp : p a = true
    · simp [updAt, hp, List.countP_cons, hrepl a hp]
    · simp only [Bool.not_eq_true] at hp
      simp [updAt, hp, List.countP_cons, ih]

theorem forall2_updAt {α : Type} (p : α → Bool) (f : α → α) :
    ∀ l : List α, List.Forall₂ (fun a b => b = a ∨ (p a = true ∧ b = f a)) l (updAt p f l) := by
  intro l
  induction l with
  | nil => exact List.Forall₂.nil
  | cons a rest ih =>
    by_cases hp : p a = true
    · simp only [updAt, hp, if_true]
      exact List.Forall₂.cons (Or.inr ⟨hp, rfl⟩)
        ((List.forall₂_same).mpr (fun x _ => Or.inl rfl))
    · simp only [Bool.not_eq_true] at hp
      simp only [updAt, hp]
      exact List.Forall₂.cons (Or.inl rfl) ih

/-! ## Claim C7 -/

/-- Claim C7: for every case, the notice period injected into the render
context is 7 days when `lease_type` equals "month-to-month" and 30 days
for every other `lease_type` value. -/
theorem claim_C7_theorem (cd : List (String × JVal)) (gd : String) :
    (pyGet "lease_type" cd = .str "month-to-month" →
      aget "notice_period" (eviction_notice_context cd gd) = some "7 days") ∧
    (pyGet "lease_type" cd ≠ .str "month-to-month" →
      aget "notice_period" (eviction_notice_context cd gd) = some "30 days") := by
  constructor
  · intro h
    simp [eviction_notice_context, aget, notice_period, h, JVal.beq_refl]
  · intro h
    have hb : JVal.beq (pyGet "lease_type" cd) (.str "month-to-month") = false := by
      cases hb : JVal.beq (pyGet "lease_type" cd) (.str "month-to-month")
      · rfl
      · exact absurd (JVal.eq_of_beq _ _ hb) h
    simp [eviction_notice_context, aget, notice_period, hb]

/-- Witness for C7: the rule evaluated on a month-to-month case and on a
fixed-term case. -/
theorem claim_C7_witness :
    aget "notice_period"
        (eviction_notice_context [("lease_type", JVal.str "month-to-month")] "d")
      = some "7 days" ∧
    aget "notice_period"
        (eviction_notice_context [("lease_type", JVal.str "Fixed Term Lease")] "d")
      = some "30 days" :=
  ⟨(claim_C7_theorem [("lease_type", JVal.str "month-to-month")] "d").1 rfl,
   (claim_C7_theorem [("lease_type", JVal.str "Fixed Term Lease")] "d").2 (by decide)⟩

/-! ## Claim C4 -/

/-- Counterexample to C4: a version-token mismatch on the index write is
surfaced after exactly one put attempt — zero retries — and as a generic
HTTP error, not an `IndexConflictError` (no such error exists in the
code). -/
theorem claim_C4_counterexample :
    update_case_index ⟨[], []⟩ (mkIndexEntry "HOU-1" ⟨none, [], []⟩ "t") false
      = (.error "422 Unprocessable Entity: sha mismatch", 1) := rfl

/-- Claim C4 (amended): `update_case_index` performs exactly one
read-modify-write attempt; a rejected conditional put is surfaced
immediately as a raised HTTP error with no retry, and a successful put
appends the entry. -/
theorem claim_C4_theorem (st : GHState) (entry : IndexEntry) (putOk : Bool) :
    (update_case_index st entry putOk).2 = 1 ∧
    (putOk = false →
      (update_case_index st entry putOk).1 = .error "422 Unprocessable Entity: sha mismatch") ∧
    (putOk = true →
      (update_case_index st entry putOk).1 = .ok { st with index := st.index ++ [entry] }) := by
  refine ⟨rfl, ?_, ?_⟩ <;> intro h <;> subst h <;> rfl

/-- Witness for the amended C4 at a concrete conflicted write. -/
theorem claim_C4_witness :
    (update_case_index ⟨[], []⟩ (mkIndexEntry "HOU-2" ⟨none, [], []⟩ "t") false).1
      = .error "422 Unprocessable Entity: sha mismatch" ∧
    (update_case_index ⟨[], []⟩ (mkIndexEntry "HOU-2" ⟨none, [], []⟩ "t") false).2 = 1 :=
  ⟨(claim_C4_theorem ⟨[], []⟩ (mkIndexEntry "HOU-2" ⟨none, [], []⟩ "t") false).2.1 rfl,
   (claim_C4_theorem ⟨[], []⟩ (mkIndexEntry "HOU-2" ⟨none, [], []⟩ "t") false).1⟩

/-! ## Claim C1 -/

/-- Counterexample to C1: the remote index update of
`github_submitter.update_case_index` appends unconditionally, so after
two submissions of case id "HOU-7" the index holds two entries with
that `case_id`. -/
theorem claim_C1_counterexample :
    (update_case_index ⟨[], []⟩ (mkIndexEntry "HOU-7" ⟨none, [], []⟩ "t") true).1
      = .ok ⟨[], [mkIndexEntry "HOU-7" ⟨none, [], []⟩ "t"]⟩ ∧
    (update_case_index ⟨[], [mkIndexEntry "HOU-7" ⟨none, [], []⟩ "t"]⟩
        (mkIndexEntry "HOU-7" ⟨none, [], []⟩ "t") true).1
      = .ok ⟨[], [mkIndexEntry "HOU-7" ⟨none, [], []⟩ "t",
                  mkIndexEntry "HOU-7" ⟨none, [], []⟩ "t"]⟩ ∧
    ([mkIndexEntry "HOU-7" ⟨none, [], []⟩ "t",
      mkIndexEntry "HOU-7" ⟨none, [], []⟩ "t"].countP
        (fun en => en.case_id = "HOU-7")) = 2 :=
  ⟨rfl, rfl, by decide⟩

/-- Claim C1 (amended): the local database upsert
(`main.update_case_database`) does replace rather than append — starting
from a database with at most one entry for the record's id, the result
has exactly one entry for that id and unchanged counts for every other
id; the remote index update (`update_case_index`) appends
unconditionally and can duplicate an id (see the counterexample). -/
theorem claim_C1_theorem (cases : List Case) (c : Case) (v : JVal)
    (hv : aget "case_id" c = some v)
    (hcount : db_id_count cases v ≤ 1) :
    ∃ cases', update_case_database cases c = some cases' ∧
      db_id_count cases' v = 1 ∧
      ∀ w, w ≠ v → db_id_count cases' w = db_id_count cases w := by
  have hcv : pyGet "case_id" c = v := by simp [pyGet, hv]
  unfold update_case_database
  rw [hv]
  dsimp only
  by_cases hany : cases.any (fun x => JVal.beq (pyGet "case_id" x) v) = true
  · rw [if_pos hany]
    refine ⟨_, rfl, ?_, ?_⟩
    · have hpres : ∀ a, (fun x => JVal.beq (pyGet "case_id" x) v) a = true →
          (fun x => JVal.beq (pyGet "case_id" x) v) ((fun _ => c) a)
            = (fun x => JVal.beq (pyGet "case_id" x) v) a := by
        intro a ha
        simp only [] at ha ⊢
        rw [hcv, JVal.beq_refl]
        exact ha.symm
      have h1 : db_id_count (updAt (fun x => JVal.beq (pyGet "case_id" x) v)
          (fun _ => c) cases) v = db_id_count cases v :=
        countP_updAt _ _ _ hpres cases
      have h2 : 0 < db_id_count cases v := by
        rw [List.any_eq_true] at hany
        obtain ⟨a, ha, hpa⟩ := hany
        exact List.countP_pos_iff.mpr ⟨a, ha, hpa⟩
      omega
    · intro w hw
      refine countP_updAt _ _ _ ?_ cases
      intro a ha
      simp only [] at ha ⊢
      rw [beq_pyGet_eq_false c v w hcv hw]
      have := JVal.eq_of_beq _ _ ha
      rw [beq_pyGet_eq_false a v w this hw]
  · simp only [Bool.not_eq_true] at hany
    rw [if_neg (by simp [hany])]
    refine ⟨_, rfl, ?_, ?_⟩
    · have h0 : db_id_count cases v = 0 := by
        rw [List.any_eq_false] at hany
        exact List.countP_eq_zero.mpr (fun a ha => by simp [hany a ha])
      unfold db_id_count at h0 ⊢
      rw [List.countP_append, h0]
      simp [List.countP_cons, hcv, JVal.beq_refl]
    · intro w hw
      unfold db_id_count
      rw [List.countP_append]
      simp [List.countP_cons, beq_pyGet_eq_false c v w hcv hw]

/-- Witness for the amended C1: upserting a record whose id is already
present leaves exactly one entry for that id. -/
theorem claim_C1_witness :
    ∃ cases', update_case_database
        [[("case_id", JVal.str "A"), ("status", JVal.str "submitted")]]
        [("case_id", JVal.str "A"), ("status", JVal.str "filed")] = some cases' ∧
      db_id_count cases' (.str "A") = 1 ∧
      ∀ w, w ≠ JVal.str "A" →
        db_id_count cases' w
          = db_id_count [[("case_id", JVal.str "A"), ("status", JVal.str "submitted")]] w :=
  claim_C1_theorem _ _ _ rfl (by decide)

/-! ## Claim C5 -/

/-- Counterexample to C5: the dashboard `update_case` endpoint accepts a
status move to "filed" for a case that has no `official_case_number`,
succeeds, and leaves the case filed with the number still absent — the
operation is neither rejected nor flagged. -/
theorem claim_C5_counterexample :
    update_case [[("case_id", JVal.str "A"), ("status", JVal.str "approved")]] "A"
        ⟨some "filed", none, none, none, none⟩ "admin" "T"
      = .ok [[("case_id", JVal.str "A"), ("status", JVal.str "filed"),
              ("assigned_by", JVal.str "admin"), ("assigned_at", JVal.str "T")]] ∧
    aget "status" [("case_id", JVal.str "A"), ("status", JVal.str "filed"),
        ("assigned_by", JVal.str "admin"), ("assigned_at", JVal.str "T")]
      = some (.str "filed") ∧
    aget "official_case_number" [("case_id", JVal.str "A"), ("status", JVal.str "filed"),
        ("assigned_by", JVal.str "admin"), ("assigned_at", JVal.str "T")]
      = none :=
  ⟨rfl, rfl, rfl⟩

/-- Lemma: `assign_fields` always stores the official number and the "filed"
status (the later `dset`s touch other keys). -/
theorem aget_assign_fields (num eff now : String) (c : Case) :
    aget "official_case_number" (assign_fields num eff now c) = some (.str num) ∧
    aget "status" (assign_fields num eff now c) = some (.str "filed") := by
  unfold assign_fields
  constructor
  · rw [aget_dset_ne _ _ _ _ (by decide), aget_dset_ne _ _ _ _ (by decide),
      aget_dset_ne _ _ _ _ (by decide)]
    exact aget_dset_self _ _ _
  · rw [aget_dset_ne _ _ _ _ (by decide), aget_dset_ne _ _ _ _ (by decide)]
    exact aget_dset_self _ _ _

/-- Claim C5 (amended): no operation rejects or flags reaching "filed"
without an `official_case_number` (see the counterexample); the
invariant is guaranteed only on the `assign_case_number` path, which
sets `official_case_number` together with `status = "filed"` on every
entry it updates. -/
theorem claim_C5_theorem (st : MainState) (cid num : String) (fd : Option String)
    (today now : String) (st' : MainState)
    (h : assign_case_number st cid num fd today now = .ok st') :
    ∃ cases cases', st.db = some cases ∧ st'.db = some cases' ∧
      List.Forall₂ (fun c c' => c' = c ∨
        (case_id_matches cid c = true ∧
          aget "official_case_number" c' = some (.str num) ∧
          aget "status" c' = some (.str "filed"))) cases cases' ∧
      cases.any (case_id_matches cid) = true := by
  unfold assign_case_number at h
  cases hdb : st.db with
  | none =>
    rw [hdb] at h
    exact Except.noConfusion h
  | some cases =>
    rw [hdb] at h
    dsimp only at h
    by_cases hany : cases.any (case_id_matches cid) = true
    · rw [if_pos hany] at h
      injection h with h2
      subst h2
      refine ⟨cases, _, rfl, rfl, ?_, hany⟩
      refine List.Forall₂.imp ?_ (forall2_updAt (case_id_matches cid) _ cases)
      intro a b hab
      rcases hab with rfl | ⟨hp, rfl⟩
      · exact Or.inl rfl
      · exact Or.inr ⟨hp, (aget_assign_fields _ _ _ _).1, (aget_assign_fields _ _ _ _).2⟩
    · rw [if_neg hany] at h
      exact Except.noConfusion h

/-- Witness for the amended C5: a concrete `assign_case_number` call
whose updated entry carries both the official number and the filed
status. -/
theorem claim_C5_witness :
    ∃ cases cases',
      (MainState.mk (some [[("case_id", JVal.str "A")]]) []).db = some cases ∧
      (MainState.mk (some [[("case_id", JVal.str "A"),
          ("official_case_number", JVal.str "HOU-MC-1"), ("status", JVal.str "filed"),
          ("filing_date", JVal.str "D"), ("assigned_at", JVal.str "T")]]) []).db
        = some cases' ∧
      List.Forall₂ (fun c c' => c' = c ∨
        (case_id_matches "A" c = true ∧
          aget "official_case_number" c' = some (.str "HOU-MC-1") ∧
          aget "status" c' = some (.str "filed"))) cases cases' ∧
      cases.any (case_id_matches "A") = true :=
  claim_C5_theorem (MainState.mk (some [[("case_id", JVal.str "A")]]) [])
    "A" "HOU-MC-1" none "D" "T" _ rfl

/-! ## Claim C6 -/

/-- Any id of the claimed format contains exactly three dashes. -/
theorem dash_count_of_format (s : String) (h : spec_claimed_id_format s) :
    s.data.count '-' = 3 := by
  obtain ⟨p, y, t, r, heq, _, hp, hy, ht, hr⟩ := h
  subst heq
  have h1 : p.data.count '-' = 0 := List.count_eq_zero.mpr hp
  have h2 : y.data.count '-' = 0 := List.count_eq_zero.mpr hy
  have h3 : t.data.count '-' = 0 := List.count_eq_zero.mpr ht
  have h4 : r.data.count '-' = 0 := List.count_eq_zero.mpr hr
  have hd : ("-" : String).data.count '-' = 1 := by decide
  simp [String.data_append, List.count_append, h1, h2, h3, h4, hd]

/-- Counterexample to C6: the id the GitHub submitter allocates when no
`case_id` is supplied is `HOU-<year>-<timestamp>` with only two dashes —
it has no fourth, random component, so it does not match the claimed
format. -/
theorem claim_C6_counterexample :
    resolve_case_id none 2024 1706092000 = "HOU-2024-1706092000" ∧
    ¬ spec_claimed_id_format (resolve_case_id none 2024 1706092000) := by
  refine ⟨rfl, ?_⟩
  intro h
  have h3 := dash_count_of_format _ h
  exact absurd h3 (by decide)

/-- Claim C6 (amended): a supplied non-empty `case_id` is used verbatim
and allocation is skipped; the GitHub submitter's allocated id is
`HOU-<year>-<timestamp>` with no random suffix, while the `main.py`
submission endpoint's allocated id is `HOU-<year>-<timestamp>-<random>`
(that endpoint accepts no caller-supplied id). -/
theorem claim_C6_theorem (cid : String) (hc : cid ≠ "") (year ts : Nat) (r : String) :
    resolve_case_id (some cid) year ts = cid ∧
    resolve_case_id none year ts = "HOU-" ++ toString year ++ "-" ++ toString ts ∧
    main_alloc_case_id year ts r
      = "HOU-" ++ toString year ++ "-" ++ toString ts ++ "-" ++ r := by
  refine ⟨?_, rfl, rfl⟩
  simp [resolve_case_id, hc]

/-- Witness for the amended C6 at concrete inputs. -/
theorem claim_C6_witness :
    resolve_case_id (some "EXT-1") 2024 99 = "EXT-1" ∧
    resolve_case_id none 2024 99 = "HOU-" ++ toString 2024 ++ "-" ++ toString 99 ∧
    main_alloc_case_id 2024 99 "ab12cd34"
      = "HOU-" ++ toString 2024 ++ "-" ++ toString 99 ++ "-" ++ "ab12cd34" :=
  claim_C6_theorem "EXT-1" (by decide) 2024 99 "ab12cd34"

/-! ## Claim C9 -/

/-- Every branch of `submit_case` — success or any failure — returns the
resolved case id in the result. -/
theorem submit_case_result_case_id (st : GHState) (sub : CaseSubmission) (year ts : Nat)
    (now : String) (failPaths : List String) (indexPutOk : Bool) :
    (submit_case st sub year ts now failPaths indexPutOk).2.case_id
      = some (resolve_case_id sub.case_id year ts) := by
  unfold submit_case
  dsimp only
  split
  · rfl
  · split
    · rfl
    · split
      · rfl
      · rfl

/-- Claim C9: for every submission that fails after the case id has been
resolved (every failure of `submit_case` is after resolution), the error
result still carries that case id. -/
theorem claim_C9_theorem (st : GHState) (sub : CaseSubmission) (year ts : Nat)
    (now : String) (failPaths : List String) (indexPutOk : Bool)
    (_h : (submit_case st sub year ts now failPaths indexPutOk).2.success = false) :
    (submit_case st sub year ts now failPaths indexPutOk).2.case_id
      = some (resolve_case_id sub.case_id year ts) :=
  submit_case_result_case_id st sub year ts now failPaths indexPutOk

/-- Witness for C9: a submission whose `case_data.json` write fails
still reports the supplied case id. -/
theorem claim_C9_witness :
    (submit_case ⟨[], []⟩ ⟨some "A", [], []⟩ 2024 5 "T"
        ["cases/A/case_data.json"] true).2.success = false ∧
    (submit_case ⟨[], []⟩ ⟨some "A", [], []⟩ 2024 5 "T"
        ["cases/A/case_data.json"] true).2.case_id
      = some (resolve_case_id (some "A") 2024 5) :=
  ⟨rfl, claim_C9_theorem ⟨[], []⟩ ⟨some "A", [], []⟩ 2024 5 "T"
    ["cases/A/case_data.json"] true rfl⟩

/-! ## Claim C10 -/

/-- Lemma: `upd_status_fields` touches only `status`, `updated_at` and
(when `notes` is truthy) `admin_notes`; it stores the new status and
timestamp, leaves `admin_notes` untouched for falsy `notes`, and stores
the notes text for truthy `notes`. -/
theorem upd_status_fields_spec (status now : String) (notes : Option String) (c : Case) :
    agreesExcept ["status", "updated_at", "admin_notes"] c
      (upd_status_fields status now notes c) ∧
    aget "status" (upd_status_fields status now notes c) = some (.str status) ∧
    aget "updated_at" (upd_status_fields status now notes c) = some (.str now) ∧
    (truthy notes = false →
      aget "admin_notes" (upd_status_fields status now notes c)
        = aget "admin_notes" c) ∧
    (∀ s : String, notes = some s → s ≠ "" →
      aget "admin_notes" (upd_status_fields status now notes c)
        = some (.str s)) := by
  have hbase : ∀ k, k ≠ "status" → k ≠ "updated_at" →
      aget k (dset (dset c "status" (.str status)) "updated_at" (.str now)) = aget k c := by
    intro k h1 h2
    rw [aget_dset_ne _ _ _ _ h2, aget_dset_ne _ _ _ _ h1]
  have hs : aget "status" (dset (dset c "status" (.str status)) "updated_at" (.str now))
      = some (.str status) := by
    rw [aget_dset_ne _ _ _ _ (by decide)]
    exact aget_dset_self _ _ _
  have hu : aget "updated_at" (dset (dset c "status" (.str status)) "updated_at" (.str now))
      = some (.str now) := aget_dset_self _ _ _
  have hadmin : aget "admin_notes"
      (dset (dset c "status" (.str status)) "updated_at" (.str now))
      = aget "admin_notes" c := hbase "admin_notes" (by decide) (by decide)
  unfold upd_status_fields
  cases notes with
  | none =>
    refine ⟨?_, hs, hu, fun _ => hadmin, fun s hs' _ => Option.noConfusion hs'⟩
    intro k hk
    simp only [List.mem_cons, List.mem_singleton, not_or] at hk
    exact hbase k hk.1 hk.2.1
  | some s =>
    dsimp only
    by_cases hse : s = ""
    · rw [if_pos hse]
      refine ⟨?_, hs, hu, fun _ => hadmin, ?_⟩
      · intro k hk
        simp only [List.mem_cons, List.mem_singleton, not_or] at hk
        exact hbase k hk.1 hk.2.1
      · intro s' hinj hne
        injection hinj with hss
        exact absurd (hss ▸ hse) hne
    · rw [if_neg hse]
      have htr : truthy (some s) = true := by simp [truthy, hse]
      refine ⟨?_, ?_, ?_, ?_, ?_⟩
      · intro k hk
        simp only [List.mem_cons, List.mem_singleton, not_or] at hk
        rw [aget_dset_ne _ _ _ _ hk.2.2.1]
        exact hbase k hk.1 hk.2.1
      · rw [aget_dset_ne _ _ _ _ (by decide)]
        exact hs
      · rw [aget_dset_ne _ _ _ _ (by decide)]
        exact hu
      · intro hf
        rw [htr] at hf
        exact Bool.noConfusion hf
      · intro s' hinj hne
        injection hinj with hss
        subst hss
        exact aget_dset_self _ _ _

/-- Claim C10: `update_case_status` modifies only `status`, `updated_at`
and — exactly when `notes` is supplied and truthy — `admin_notes` of the
updated entry, in both the database list and the per-case record: every
other field of those records (`case_id` and `submitted_at` included) is
unchanged, `admin_notes` is also unchanged whenever `notes` is absent or
falsy, and every other case and record are unchanged. -/
theorem claim_C10_theorem (st : MainState) (cid status now : String)
    (notes : Option String) (st' : MainState)
    (h : update_case_status st cid status now notes = .ok st') :
    (∃ cases cases', st.db = some cases ∧ st'.db = some cases' ∧
      List.Forall₂ (fun c c' => c' = c ∨
        (case_id_matches cid c = true ∧
          agreesExcept ["status", "updated_at", "admin_notes"] c c' ∧
          aget "status" c' = some (.str status) ∧
          aget "updated_at" c' = some (.str now) ∧
          (truthy notes = false → aget "admin_notes" c' = aget "admin_notes" c) ∧
          (∀ s : String, notes = some s → s ≠ "" →
            aget "admin_notes" c' = some (.str s)))) cases cases') ∧
    (∀ cid', cid' ≠ cid → aget cid' st'.recs = aget cid' st.recs) ∧
    (∀ rc, aget cid st.recs = some rc →
      ∃ rc', aget cid st'.recs = some rc' ∧
        agreesExcept ["status", "updated_at", "admin_notes"] rc rc' ∧
        aget "status" rc' = some (.str status) ∧
        aget "updated_at" rc' = some (.str now) ∧
        (truthy notes = false → aget "admin_notes" rc' = aget "admin_notes" rc) ∧
        (∀ s : String, notes = some s → s ≠ "" →
          aget "admin_notes" rc' = some (.str s))) ∧
    (aget cid st.recs = none → st'.recs = st.recs) := by
  unfold update_case_status at h
  cases hdb : st.db with
  | none =>
    rw [hdb] at h
    exact Except.noConfusion h
  | some cases =>
    rw [hdb] at h
    dsimp only at h
    by_cases hany : cases.any (case_id_matches cid) = true
    · rw [if_pos hany] at h
      injection h with h2
      subst h2
      refine ⟨⟨cases, _, rfl, rfl, ?_⟩, ?_, ?_, ?_⟩
      · refine List.Forall₂.imp ?_ (forall2_updAt (case_id_matches cid) _ cases)
        intro a b hab
        rcases hab with rfl | ⟨hp, rfl⟩
        · exact Or.inl rfl
        · exact Or.inr ⟨hp, upd_status_fields_spec status now notes a⟩
      · intro cid' hne
        dsimp only
        cases hrc : aget cid st.recs with
        | none => rfl
        | some rc => exact aget_dset_ne _ _ _ _ hne
      · intro rc hrc
        dsimp only
        rw [hrc]
        exact ⟨upd_status_fields status now notes rc, aget_dset_self _ _ _,
          upd_status_fields_spec status now notes rc⟩
      · intro hrc
        dsimp only
        rw [hrc]
    · rw [if_neg hany] at h
      exact Except.noConfusion h

/-- Witness for C10: a concrete successful status update, with the
output state given explicitly. -/
theorem claim_C10_witness :
    (∃ cases cases',
      (MainState.mk (some [[("case_id", JVal.str "A"), ("submitted_at", JVal.str "S")]])
        [("A", [("case_id", JVal.str "A")])]).db = some cases ∧
      (MainState.mk (some [[("case_id", JVal.str "A"), ("submitted_at", JVal.str "S"),
          ("status", JVal.str "processing"), ("updated_at", JVal.str "T"),
          ("admin_notes", JVal.str "ok")]])
        [("A", [("case_id", JVal.str "A"), ("status", JVal.str "processing"),
          ("updated_at", JVal.str "T"), ("admin_notes", JVal.str "ok")])]).db
        = some cases' ∧
      List.Forall₂ (fun c c' => c' = c ∨
        (case_id_matches "A" c = true ∧
          agreesExcept ["status", "updated_at", "admin_notes"] c c' ∧
          aget "status" c' = some (.str "processing") ∧
          aget "updated_at" c' = some (.str "T") ∧
          (truthy (some "ok") = false →
            aget "admin_notes" c' = aget "admin_notes" c) ∧
          (∀ s : String, some "ok" = some s → s ≠ "" →
            aget "admin_notes" c' = some (.str s)))) cases cases') ∧
    (∀ cid', cid' ≠ "A" →
      aget cid' (MainState.mk (some [[("case_id", JVal.str "A"),
          ("submitted_at", JVal.str "S"), ("status", JVal.str "processing"),
          ("updated_at", JVal.str "T"), ("admin_notes", JVal.str "ok")]])
        [("A", [("case_id", JVal.str "A"), ("status", JVal.str "processing"),
          ("updated_at", JVal.str "T"), ("admin_notes", JVal.str "ok")])]).recs
      = aget cid' (MainState.mk
          (some [[("case_id", JVal.str "A"), ("submitted_at", JVal.str "S")]])
          [("A", [("case_id", JVal.str "A")])]).recs) ∧
    (∀ rc, aget "A" (MainState.mk
          (some [[("case_id", JVal.str "A"), ("submitted_at", JVal.str "S")]])
          [("A", [("case_id", JVal.str "A")])]).recs = some rc →
      ∃ rc', aget "A" (MainState.mk (some [[("case_id", JVal.str "A"),
          ("submitted_at", JVal.str "S"), ("status", JVal.str "processing"),
          ("updated_at", JVal.str "T"), ("admin_notes", JVal.str "ok")]])
        [("A", [("case_id", JVal.str "A"), ("status", JVal.str "processing"),
          ("updated_at", JVal.str "T"), ("admin_notes", JVal.str "ok")])]).recs
          = some rc' ∧
        agreesExcept ["status", "updated_at", "admin_notes"] rc rc' ∧
        aget "status" rc' = some (.str "processing") ∧
        aget "updated_at" rc' = some (.str "T") ∧
        (truthy (some "ok") = false →
          aget "admin_notes" rc' = aget "admin_notes" rc) ∧
        (∀ s : String, some "ok" = some s → s ≠ "" →
          aget "admin_notes" rc' = some (.str s))) ∧
    (aget "A" (MainState.mk
        (some [[("case_id", JVal.str "A"), ("submitted_at", JVal.str "S")]])
        [("A", [("case_id", JVal.str "A")])]).recs = none →
      (MainState.mk (some [[("case_id", JVal.str "A"), ("submitted_at", JVal.str "S"),
          ("status", JVal.str "processing"), ("updated_at", JVal.str "T"),
          ("admin_notes", JVal.str "ok")]])
        [("A", [("case_id", JVal.str "A"), ("status", JVal.str "processing"),
          ("updated_at", JVal.str "T"), ("admin_notes", JVal.str "ok")])]).recs
      = (MainState.mk (some [[("case_id", JVal.str "A"), ("submitted_at", JVal.str "S")]])
          [("A", [("case_id", JVal.str "A")])]).recs) :=
  claim_C10_theorem
    (MainState.mk (some [[("case_id", JVal.str "A"), ("submitted_at", JVal.str "S")]])
      [("A", [("case_id", JVal.str "A")])]) "A" "processing" "T" (some "ok")
    (MainState.mk (some [[("case_id", JVal.str "A"), ("submitted_at", JVal.str "S"),
        ("status", JVal.str "processing"), ("updated_at", JVal.str "T"),
        ("admin_notes", JVal.str "ok")]])
      [("A", [("case_id", JVal.str "A"), ("status", JVal.str "processing"),
        ("updated_at", JVal.str "T"), ("admin_notes", JVal.str "ok")])]) rfl

/-! ## Claim C8 -/

theorem sum_modAssoc (g : MStats → Nat) (d : Nat) (k : String) (f : MStats → MStats)
    (hf : ∀ m, g (f m) = g m + d) :
    ∀ acc : List (String × MStats), (aget k acc).isSome →
      ((modAssoc k f acc).map (fun e => g e.2)).sum
        = (acc.map (fun e => g e.2)).sum + d := by
  intro acc
  induction acc with
  | nil => intro h; simp [aget] at h
  | cons e rest ih =>
    obtain ⟨k', m⟩ := e
    intro hsome
    by_cases hk : k' = k
    · simp [modAssoc, hk, hf m]
      omega
    · have hsome' : (aget k rest).isSome := by
        simpa [aget, hk] using hsome
      simp [modAssoc, hk, ih hsome']
      omega

theorem sum_addCase (g : MStats → Nat) (c : DCase) (d : Nat)
    (hf : ∀ m, g (bump_stats c m) = g m + d) (hz : g MStats.zero = 0)
    (acc : List (String × MStats)) :
    ((add_case_to_stats acc c).map (fun e => g e.2)).sum
      = (acc.map (fun e => g e.2)).sum + d := by
  unfold add_case_to_stats
  dsimp only
  cases haget : aget (month_key c.submitted_at) acc with
  | some m =>
    dsimp only
    exact sum_modAssoc g d _ _ hf acc (by rw [haget]; rfl)
  | none =>
    dsimp only
    rw [List.map_append, List.sum_append]
    simp [hf MStats.zero, hz]

theorem sum_stats_foldl (g : MStats → Nat) (δ : DCase → Nat)
    (hf : ∀ c m, g (bump_stats c m) = g m + δ c) (hz : g MStats.zero = 0) :
    ∀ (cases : List DCase) (acc : List (String × MStats)),
      ((cases.foldl add_case_to_stats acc).map (fun e => g e.2)).sum
        = (acc.map (fun e => g e.2)).sum + (cases.map δ).sum := by
  intro cases
  induction cases with
  | nil => intro acc; simp
  | cons c rest ih =>
    intro acc
    simp only [List.foldl_cons, List.map_cons, List.sum_cons]
    rw [ih (add_case_to_stats acc c), sum_addCase g c (δ c) (hf c) hz acc]
    omega

theorem insert_desc_perm (e : String × MStats) :
    ∀ l : List (String × MStats), (insert_desc e l).Perm (e :: l) := by
  intro l
  induction l with
  | nil => exact List.Perm.refl _
  | cons x rest ih =>
    by_cases hx : x.1 ≤ e.1
    · simp [insert_desc, hx]
    · simp only [insert_desc, if_neg hx]
      exact (ih.cons x).trans (List.Perm.swap e x rest)

theorem sort_desc_perm : ∀ l : List (String × MStats), (sort_desc l).Perm l := by
  intro l
  induction l with
  | nil => exact List.Perm.refl _
  | cons x rest ih =>
    simp only [sort_desc, List.foldr_cons]
    exact (insert_desc_perm x _).trans (ih.cons x)

theorem sum_map_ones (cases : List DCase) :
    (cases.map (fun _ => 1)).sum = cases.length := by
  induction cases with
  | nil => rfl
  | cons c rest ih => simp [ih]; omega

theorem sum_map_ite_eq_countP (p : DCase → Prop) [DecidablePred p] (cases : List DCase) :
    (cases.map (fun c => if p c then 1 else 0)).sum
      = cases.countP (fun c => decide (p c)) := by
  induction cases with
  | nil => rfl
  | cons c rest ih =>
    by_cases hp : p c
    · simp [List.countP_cons, hp, ih]
      omega
    · simp [List.countP_cons, hp, ih]

/-- Claim C8: the monthly report and the CSV export reconcile — the sum
of the monthly `total` fields equals the number of stored cases (the
CSV has exactly one data row per case), and the sum of the monthly
`filed` counts equals the number of cases with status "filed". -/
theorem claim_C8_theorem (cases : List DCase) :
    report_total_sum (get_monthly_report cases) = cases.length ∧
    report_filed_sum (get_monthly_report cases)
      = cases.countP (fun c => c.status = "filed") ∧
    (export_cases_csv cases).length = cases.length + 1 := by
  have hperm := sort_desc_perm (monthly_stats cases)
  refine ⟨?_, ?_, ?_⟩
  · unfold report_total_sum get_monthly_report
    rw [(hperm.map (fun e => e.2.total)).sum_eq]
    unfold monthly_stats
    rw [sum_stats_foldl MStats.total (fun _ => 1) (fun c m => rfl) rfl cases []]
    simp [sum_map_ones]
  · unfold report_filed_sum get_monthly_report
    rw [(hperm.map (fun e => e.2.filed)).sum_eq]
    unfold monthly_stats
    rw [sum_stats_foldl MStats.filed (fun c => if c.status = "filed" then 1 else 0)
      (fun c m => by unfold bump_stats; dsimp only; split <;> simp) rfl cases []]
    simpa using sum_map_ite_eq_countP (fun c => c.status = "filed") cases
  · simp [export_cases_csv]

/-! ## Claim C3 -/

/-- Shape of every `submit_case` outcome: on success the entry was
appended to the index; on any failure the index is exactly as before
the call. -/
theorem submit_case_index_shape (st : GHState) (sub : CaseSubmission) (year ts : Nat)
    (now : String) (failPaths : List String) (indexPutOk : Bool) :
    ((submit_case st sub year ts now failPaths indexPutOk).2.success = true ∧
      (submit_case st sub year ts now failPaths indexPutOk).1.index
        = st.index ++ [mkIndexEntry (resolve_case_id sub.case_id year ts) sub now]) ∨
    ((submit_case st sub year ts now failPaths indexPutOk).2.success = false ∧
      (submit_case st sub year ts now failPaths indexPutOk).1.index = st.index) := by
  unfold submit_case
  dsimp only
  split
  · exact Or.inr ⟨rfl, rfl⟩
  · split
    · exact Or.inr ⟨rfl, rfl⟩
    · cases indexPutOk
      · exact Or.inr ⟨rfl, rfl⟩
      · exact Or.inl ⟨rfl, rfl⟩

/-- Counterexample to C3: with two documents and the first document's
write failing, the submission aborts — the sibling document is not
written, the index stays empty, and the result reports overall failure,
not partial success. -/
theorem claim_C3_counterexample :
    submit_case ⟨[], []⟩ ⟨some "A", [], [("affidavit", "AAA"), ("summons", "BBB")]⟩
        2024 5 "T" ["cases/A/Dispossessory_Affidavit.pdf"] true
      = (⟨[("cases/A/case_data.json", "\x7b\x7d")], []⟩,
         ⟨false, some "A", none, none,
          some "write failed: cases/A/Dispossessory_Affidavit.pdf"⟩) ∧
    aget "cases/A/Summons.pdf" [("cases/A/case_data.json", "\x7b\x7d")] = none :=
  ⟨rfl, rfl⟩

/-- Claim C3 (amended): `submit_case` aborts on the first failing write
— later sibling documents are skipped (see the counterexample) and the
index upsert is never performed on a failed submission: the stored
index after any failure equals the index before the call, and the
result reports overall failure rather than partial success. -/
theorem claim_C3_theorem (st : GHState) (sub : CaseSubmission) (year ts : Nat)
    (now : String) (failPaths : List String) (indexPutOk : Bool)
    (h : (submit_case st sub year ts now failPaths indexPutOk).2.success = false) :
    (submit_case st sub year ts now failPaths indexPutOk).1.index = st.index := by
  rcases submit_case_index_shape st sub year ts now failPaths indexPutOk with
    ⟨hs, _⟩ | ⟨_, hidx⟩
  · rw [hs] at h
    exact Bool.noConfusion h
  · exact hidx

/-- Witness for the amended C3: the failing submission of the
counterexample scenario leaves the index untouched. -/
theorem claim_C3_witness :
    (submit_case ⟨[], [mkIndexEntry "B" ⟨none, [], []⟩ "t"]⟩
        ⟨some "A", [], [("affidavit", "AAA")]⟩ 2024 5 "T"
        ["cases/A/Dispossessory_Affidavit.pdf"] true).2.success = false ∧
    (submit_case ⟨[], [mkIndexEntry "B" ⟨none, [], []⟩ "t"]⟩
        ⟨some "A", [], [("affidavit", "AAA")]⟩ 2024 5 "T"
        ["cases/A/Dispossessory_Affidavit.pdf"] true).1.index
      = [mkIndexEntry "B" ⟨none, [], []⟩ "t"] :=
  ⟨rfl, claim_C3_theorem ⟨[], [mkIndexEntry "B" ⟨none, [], []⟩ "t"]⟩
    ⟨some "A", [], [("affidavit", "AAA")]⟩ 2024 5 "T"
    ["cases/A/Dispossessory_Affidavit.pdf"] true rfl⟩

/-! ## Claim C2 -/

theorem writeSeq_cons (fs : List (String × String)) (p c : String)
    (t : List (String × String)) :
    writeSeq fs ((p, c) :: t) = writeSeq (dset fs p c) t := rfl

theorem aget_writeSeq (q : String) :
    ∀ (ws fs : List (String × String)),
      aget q (writeSeq fs ws)
        = match lastW q ws with
          | some c => some c
          | none => aget q fs := by
  intro ws
  induction ws with
  | nil => intro fs; rfl
  | cons e t ih =>
    intro fs
    obtain ⟨p, c⟩ := e
    rw [writeSeq_cons, ih]
    cases hl : lastW q t with
    | some c' => simp [lastW, hl]
    | none =>
      by_cases hpq : p = q
      · subst hpq
        simp [lastW, hl, aget_dset_self]
    -- remaining: p ≠ q
      · simp [lastW, hl, hpq, aget_dset_ne fs p q c (fun hh => hpq hh.symm)]

theorem mem_keysOf_dset {α : Type} (fs : List (String × α)) (p : String) (c : α)
    (q : String) (h : q ∈ keysOf fs) : q ∈ keysOf (dset fs p c) := by
  by_cases hp : p ∈ keysOf fs
  · rw [keysOf_dset_mem _ _ _ hp]; exact h
  · rw [keysOf_dset_not_mem _ _ _ hp]; exact List.mem_append_left _ h

theorem self_mem_keysOf_dset {α : Type} (fs : List (String × α)) (p : String) (c : α) :
    p ∈ keysOf (dset fs p c) := by
  by_cases hp : p ∈ keysOf fs
  · rw [keysOf_dset_mem _ _ _ hp]; exact hp
  · rw [keysOf_dset_not_mem _ _ _ hp]; exact List.mem_append_right _ (by simp)

theorem keysOf_writeSeq_stable :
    ∀ (ws fs : List (String × String)), (∀ e ∈ ws, e.1 ∈ keysOf fs) →
      keysOf (writeSeq fs ws) = keysOf fs := by
  intro ws
  induction ws with
  | nil => intro fs _; rfl
  | cons e t ih =>
    intro fs hall
    obtain ⟨p, c⟩ := e
    have hp : p ∈ keysOf fs := hall (p, c) (List.mem_cons_self _ _)
    have hkeys : keysOf (dset fs p c) = keysOf fs := keysOf_dset_mem _ _ _ hp
    have hsub : ∀ d ∈ t, d.1 ∈ keysOf (dset fs p c) := by
      intro d hd
      rw [hkeys]
      exact hall d (List.mem_cons_of_mem _ hd)
    rw [writeSeq_cons, ih (dset fs p c) hsub, hkeys]

theorem mem_keysOf_writeSeq :
    ∀ (ws fs : List (String × String)) (q : String),
      q ∈ keysOf fs → q ∈ keysOf (writeSeq fs ws) := by
  intro ws
  induction ws with
  | nil => intro fs q h; exact h
  | cons e t ih =>
    intro fs q h
    obtain ⟨p, c⟩ := e
    rw [writeSeq_cons]
    exact ih _ q (mem_keysOf_dset fs p c q h)

theorem paths_mem_keysOf_writeSeq :
    ∀ (ws fs : List (String × String)) (e : String × String),
      e ∈ ws → e.1 ∈ keysOf (writeSeq fs ws) := by
  intro ws
  induction ws with
  | nil => intro fs e h; cases h
  | cons x t ih =>
    intro fs e he
    obtain ⟨p, c⟩ := x
    rw [writeSeq_cons]
    rcases List.mem_cons.mp he with rfl | ht
    · exact mem_keysOf_writeSeq t _ p (self_mem_keysOf_dset fs p c)
    · exact ih _ e ht

theorem nodup_keysOf_dset {α : Type} (fs : List (String × α)) (p : String) (c : α)
    (h : (keysOf fs).Nodup) : (keysOf (dset fs p c)).Nodup := by
  by_cases hp : p ∈ keysOf fs
  · rw [keysOf_dset_mem _ _ _ hp]; exact h
  · rw [keysOf_dset_not_mem _ _ _ hp]
    refine List.Nodup.append h (List.nodup_singleton p) ?_
    intro a ha hb
    simp only [List.mem_singleton] at hb
    exact hp (hb ▸ ha)

theorem nodup_keysOf_writeSeq :
    ∀ (ws fs : List (String × String)), (keysOf fs).Nodup →
      (keysOf (writeSeq fs ws)).Nodup := by
  intro ws
  induction ws with
  | nil => intro fs h; exact h
  | cons e t ih =>
    intro fs h
    obtain ⟨p, c⟩ := e
    rw [writeSeq_cons]
    exact ih _ (nodup_keysOf_dset fs p c h)

theorem aget_eq_none_of_not_mem {α : Type} (q : String) :
    ∀ fs : List (String × α), q ∉ keysOf fs → aget q fs = none := by
  intro fs
  induction fs with
  | nil => intro _; rfl
  | cons e t ih =>
    intro h
    obtain ⟨k, v⟩ := e
    have hk : k ≠ q := by
      intro hh
      exact h (by simp [keysOf, hh])
    have ht : q ∉ keysOf t := by
      intro hh
      exact h (by simp [keysOf]; right; simpa [keysOf] using hh)
    simp [aget, hk, ih ht]

theorem assoc_ext {α : Type} :
    ∀ (fs gs : List (String × α)), (keysOf fs).Nodup → keysOf fs = keysOf gs →
      (∀ q, aget q fs = aget q gs) → fs = gs := by
  intro fs
  induction fs with
  | nil =>
    intro gs _ hkeys _
    cases gs with
    | nil => rfl
    | cons e t => exact absurd hkeys (by simp [keysOf])
  | cons e t ih =>
    intro gs hnd hkeys hget
    obtain ⟨k, v⟩ := e
    cases gs with
    | nil => exact absurd hkeys (by simp [keysOf])
    | cons e' t' =>
      obtain ⟨k', v'⟩ := e'
      simp only [keysOf, List.map_cons, List.cons.injEq] at hkeys
      obtain ⟨hk, htk⟩ := hkeys
      subst hk
      have hv : v = v' := by
        have := hget k
        simpa [aget] using this
      subst hv
      have hnd' : (k :: keysOf t).Nodup := by
        simpa only [keysOf, List.map_cons] using hnd
      have hknott : k ∉ keysOf t := (List.nodup_cons.mp hnd').1
      have hndt : (keysOf t).Nodup := (List.nodup_cons.mp hnd').2
      have htk' : keysOf t = keysOf t' := by simpa only [keysOf] using htk
      have hknott' : k ∉ keysOf t' := htk' ▸ hknott
      have htails : t = t' := by
        refine ih t' hndt htk' ?_
        intro q
        by_cases hq : q = k
        · subst hq
          rw [aget_eq_none_of_not_mem q t hknott, aget_eq_none_of_not_mem q t' hknott']
        · have hkq : ¬ k = q := fun hh => hq hh.symm
          have := hget q
          simpa [aget, hkq] using this
      rw [htails]

theorem write_documents_no_fail (case_dir : String) :
    ∀ (docs files : List (String × String)),
      write_documents [] case_dir files docs
        = (writeSeq files
            (docs.map (fun dc => (case_dir ++ "/" ++ get_doc_filename dc.1, dc.2))), none) := by
  intro docs
  induction docs with
  | nil => intro files; rfl
  | cons dc t ih =>
    intro files
    obtain ⟨dt, c⟩ := dc
    simp only [write_documents, List.not_mem_nil, if_false, List.map_cons, writeSeq_cons]
    exact ih _

/-- A failure-free `submit_case` in closed form: all file writes as one
`writeSeq`, the index entry appended, a success result. -/
theorem submit_case_no_fail (st : GHState) (sub : CaseSubmission) (year ts : Nat)
    (now : String) :
    submit_case st sub year ts now [] true
      = (⟨writeSeq st.files
            (("cases/" ++ resolve_case_id sub.case_id year ts ++ "/case_data.json",
              JVal.encode (.obj sub.case_data)) ::
              sub.documents.map (fun dc =>
                ("cases/" ++ resolve_case_id sub.case_id year ts ++ "/"
                  ++ get_doc_filename dc.1, dc.2))),
          st.index ++ [mkIndexEntry (resolve_case_id sub.case_id year ts) sub now]⟩,
         ⟨true, some (resolve_case_id sub.case_id year ts),
          some ("cases/" ++ resolve_case_id sub.case_id year ts ++ "/"),
          some (sub.documents.length + 1), none⟩) := by
  unfold submit_case
  dsimp only
  rw [if_neg (List.not_mem_nil _)]
  rw [write_documents_no_fail]
  rfl

/-- Replaying an identical write sequence over its own result changes
nothing (keys are stable and every lookup already holds the last-written
content). -/
theorem writeSeq_idem (fs ws : List (String × String)) (hnd : (keysOf fs).Nodup) :
    writeSeq (writeSeq fs ws) ws = writeSeq fs ws := by
  refine assoc_ext _ _ ?_ ?_ ?_
  · exact nodup_keysOf_writeSeq ws _ (nodup_keysOf_writeSeq ws fs hnd)
  · exact keysOf_writeSeq_stable ws (writeSeq fs ws)
      (fun e he => paths_mem_keysOf_writeSeq ws fs e he)
  · intro q
    rw [aget_writeSeq q ws (writeSeq fs ws), aget_writeSeq q ws fs]
    cases lastW q ws with
    | some c => rfl
    | none => rfl

/-- Counterexample to C2: submitting the same payload twice (same
case id, same data, same clock) does not leave storage identical to one
submission — the index gains a second entry for the id, so the states
differ. -/
theorem claim_C2_counterexample :
    ((submit_case (submit_case ⟨[], []⟩ ⟨some "A", [], []⟩ 2024 5 "T" [] true).1
        ⟨some "A", [], []⟩ 2024 5 "T" [] true).1.index).length = 2 ∧
    ((submit_case ⟨[], []⟩ ⟨some "A", [], []⟩ 2024 5 "T" [] true).1.index).length = 1 ∧
    (submit_case (submit_case ⟨[], []⟩ ⟨some "A", [], []⟩ 2024 5 "T" [] true).1
        ⟨some "A", [], []⟩ 2024 5 "T" [] true).1
      ≠ (submit_case ⟨[], []⟩ ⟨some "A", [], []⟩ 2024 5 "T" [] true).1 :=
  ⟨rfl, rfl, by decide⟩

/-- Claim C2 (amended): resubmitting the same `case_id` with identical
data leaves every per-case file unchanged (each write overwrites
deterministically), but the index update appends a second identical
entry instead of replacing, so the observable storage state after two
submissions differs from one submission by exactly that duplicate
index entry. -/
theorem claim_C2_theorem (st : GHState) (sub : CaseSubmission) (year ts : Nat)
    (now : String) (hnd : (keysOf st.files).Nodup) :
    (submit_case (submit_case st sub year ts now [] true).1 sub year ts now [] true).1.files
      = (submit_case st sub year ts now [] true).1.files ∧
    (submit_case (submit_case st sub year ts now [] true).1 sub year ts now [] true).1.index
      = (submit_case st sub year ts now [] true).1.index
        ++ [mkIndexEntry (resolve_case_id sub.case_id year ts) sub now] ∧
    (submit_case st sub year ts now [] true).2.success = true ∧
    (submit_case (submit_case st sub year ts now [] true).1 sub year ts now
        [] true).2.success = true := by
  rw [submit_case_no_fail st sub year ts now]
  rw [submit_case_no_fail _ sub year ts now]
  refine ⟨?_, rfl, rfl, rfl⟩
  exact writeSeq_idem st.files _ hnd

/-- Witness for the amended C2 at a concrete submission. -/
theorem claim_C2_witness :
    (submit_case (submit_case ⟨[], []⟩ ⟨some "W", [], [("summons", "SSS")]⟩
        2024 9 "T" [] true).1 ⟨some "W", [], [("summons", "SSS")]⟩
        2024 9 "T" [] true).1.files
      = (submit_case ⟨[], []⟩ ⟨some "W", [], [("summons", "SSS")]⟩
          2024 9 "T" [] true).1.files ∧
    (submit_case (submit_case ⟨[], []⟩ ⟨some "W", [], [("summons", "SSS")]⟩
        2024 9 "T" [] true).1 ⟨some "W", [], [("summons", "SSS")]⟩
        2024 9 "T" [] true).1.index
      = (submit_case ⟨[], []⟩ ⟨some "W", [], [("summons", "SSS")]⟩
          2024 9 "T" [] true).1.index
        ++ [mkIndexEntry (resolve_case_id (some "W") 2024 9)
              ⟨some "W", [], [("summons", "SSS")]⟩ "T"] ∧
    (submit_case ⟨[], []⟩ ⟨some "W", [], [("summons", "SSS")]⟩
        2024 9 "T" [] true).2.success = true ∧
    (submit_case (submit_case ⟨[], []⟩ ⟨some "W", [], [("summons", "SSS")]⟩
        2024 9 "T" [] true).1 ⟨some "W", [], [("summons", "SSS")]⟩
        2024 9 "T" [] true).2.success = true :=
  claim_C2_theorem ⟨[], []⟩ ⟨some "W", [], [("summons", "SSS")]⟩ 2024 9 "T"
    List.nodup_nil

end GAEVIC
